import Mathlib

/-
Verification of the gohlcv resilience core: the retry executor
(internal/retry/retry.go), the fixed-window rate limiter
(internal/ratelimit/ratelimit.go) and the resilient HTTP client
(internal/httpclient/client.go), shallowly embedded in Lean.

Modelling conventions:
* Go time.Duration is int64 nanoseconds; we model it as Int together with
  explicit two's-complement wrapping (int64Wrap) at the operations where the
  Go code can overflow.
* Go uint is 64 bits; the loop bound maxRetries + 1 in Retryer.Do is
  computed modulo 2^64, as Go does.
* A context.Context is modelled as a stream ctx : Nat -> Option eps giving
  the result of the n-th observation of ctx.Err / ctx.Done during the run
  (none = not cancelled yet, some e = cancelled with error e).  Errors are
  an arbitrary type eps.
* Sleeps (time.After) are not timed; a sleep is an observation point of the
  context, matching the select between time.After and ctx.Done.
* time.Now() is modelled as a stream now : Nat -> Time of observed clock
  values, Time = Int (nanoseconds).
-/

namespace Gohlcv

abbrev Time := Int

/-- Two's-complement wrap of an integer into the int64 range. -/
def int64Wrap (x : Int) : Int := (x + 2 ^ 63) % 2 ^ 64 - 2 ^ 63

def secondNs : Int := 1000000000

def minuteNs : Int := 60 * secondNs

def hourNs : Int := 60 * minuteNs

/-! ## Retryer (internal/retry/retry.go) -/

structure Retryer where
  maxRetries : Nat
  baseDelay : Int
  maxDelay : Int
deriving DecidableEq

/-- calculateBackoff: delay := baseDelay * (1 << attempt); min(delay, maxDelay).
Both the shift of the int64 constant 1 and the int64 multiplication wrap. -/
def Retryer.calculateBackoff (r : Retryer) (attempt : Nat) : Int :=
  let delay := int64Wrap (r.baseDelay * int64Wrap (2 ^ attempt))
  min delay r.maxDelay

/-- One pass of the loop body of Retryer.Do.  fuel is the number of loop
iterations still allowed by the range bound, attempt the 0-indexed attempt
number, lastErr the recorded last error.  The attempt function fn is indexed
by the attempt number (equivalently by how many times it has been called).
The context is observed at index 2*attempt at the top of the iteration and at
2*attempt+1 in the backoff select.  Returns the final error and the number of
invocations of fn. -/
def Retryer.doAux {eps : Type} (r : Retryer) (ctx : Nat → Option eps)
    (fn : Nat → Bool × Option eps) :
    Nat → Nat → Option eps → Option eps × Nat
  | 0, attempt, lastErr => (lastErr, attempt)
  | fuel + 1, attempt, _lastErr =>
    match ctx (2 * attempt) with
    | some e => (some e, attempt)
    | none =>
      let res := fn attempt
      if res.1 then
        if attempt < r.maxRetries then
          match ctx (2 * attempt + 1) with
          | some e => (some e, attempt + 1)
          | none => Retryer.doAux r ctx fn fuel (attempt + 1) res.2
        else Retryer.doAux r ctx fn fuel (attempt + 1) res.2
      else (res.2, attempt + 1)

/-- Retryer.Do.  The Go loop is `for attempt := range r.maxRetries + 1` with
maxRetries a uint, so the iteration count is (maxRetries + 1) mod 2^64. -/
def Retryer.Do {eps : Type} (r : Retryer) (ctx : Nat → Option eps)
    (fn : Nat → Bool × Option eps) : Option eps × Nat :=
  Retryer.doAux r ctx fn ((r.maxRetries + 1) % 2 ^ 64) 0 none

example : Retryer.Do ⟨2, 0, 0⟩ (fun _ => (none : Option Nat))
    (fun k => (true, some k)) = (some 2, 3) := by decide

example : Retryer.Do ⟨2 ^ 64 - 1, 0, 0⟩ (fun _ => (none : Option Nat))
    (fun k => (true, some k)) = (none, 0) := by decide

example : Retryer.calculateBackoff ⟨5, 100, 1000⟩ 3 = 800 := by decide

example : Retryer.calculateBackoff ⟨5, 1, 1000⟩ 63 = -(2 ^ 63) := by decide

/-! ## RateLimiter (internal/ratelimit/ratelimit.go)

The struct holds the three window counters, the three reset deadlines and
the three immutable ceilings.  The mutex is represented by the fact that
canProceed and increment are each a single atomic step of the model. -/

structure RateLimiter where
  secCount : Int
  minCount : Int
  hrCount : Int
  secReset : Time
  minReset : Time
  hrReset : Time
  requestsPerSecond : Int
  requestsPerMinute : Int
  requestsPerHour : Int
deriving DecidableEq

/-- NewRateLimiter: counters zero, reset deadlines now+1s, now+1m, now+1h. -/
def newRateLimiter (requestsPerSecond requestsPerMinute requestsPerHour : Int)
    (now : Time) : RateLimiter :=
  { secCount := 0
    minCount := 0
    hrCount := 0
    secReset := now + secondNs
    minReset := now + minuteNs
    hrReset := now + hourNs
    requestsPerSecond := requestsPerSecond
    requestsPerMinute := requestsPerMinute
    requestsPerHour := requestsPerHour }

/-- resetIfNeeded: each window whose deadline lies strictly before now is
zeroed and its deadline advanced (now.After(t) is now > t). -/
def resetIfNeeded (r : RateLimiter) (now : Time) : RateLimiter :=
  let r1 := if r.secReset < now then
    { r with secCount := 0, secReset := now + secondNs } else r
  let r2 := if r1.minReset < now then
    { r1 with minCount := 0, minReset := now + minuteNs } else r1
  if r2.hrReset < now then
    { r2 with hrCount := 0, hrReset := now + hourNs } else r2

/-- canProceed: apply pending resets, then test all three counters against
their ceilings.  Returns the admission decision and the updated state (the
state mutation performed under the lock). -/
def canProceed (r : RateLimiter) (now : Time) : Bool × RateLimiter :=
  let r2 := resetIfNeeded r now
  (decide (r2.secCount < r2.requestsPerSecond) &&
    decide (r2.minCount < r2.requestsPerMinute) &&
    decide (r2.hrCount < r2.requestsPerHour), r2)

/-- increment: one unit consumed from each of the three windows. -/
def increment (r : RateLimiter) : RateLimiter :=
  { r with
    secCount := r.secCount + 1
    minCount := r.minCount + 1
    hrCount := r.hrCount + 1 }

/-- RateLimiter.Wait for a single (sequential) caller.  fuel bounds the
number of poll iterations, i is the index of the next context observation
(the value of now is sampled at the same index).  Result: some none means
admitted, some (some e) means the context error e was returned, none means
the caller is still blocked when fuel runs out.  Also returns the final
limiter state and the next observation index. -/
def RateLimiter.wait {eps : Type} (ctx : Nat → Option eps) (now : Nat → Time) :
    Nat → Nat → RateLimiter → Option (Option eps) × RateLimiter × Nat
  | 0, i, r => (none, r, i)
  | fuel + 1, i, r =>
    match ctx i with
    | some e => (some (some e), r, i + 1)
    | none =>
      let p := canProceed r (now i)
      if p.1 then (some none, increment p.2, i + 1)
      else
        match ctx (i + 1) with
        | some e => (some (some e), p.2, i + 2)
        | none => RateLimiter.wait ctx now fuel (i + 2) p.2

/-- A sequence of Wait calls, each with its own context stream, clock stream
and poll-iteration bound, run sequentially from a common limiter state. -/
def waitSeq {eps : Type} (ctxs : Nat → Nat → Option eps)
    (nows : Nat → Nat → Time) (fuels : Nat → Nat) :
    Nat → RateLimiter → RateLimiter
  | 0, r => r
  | n + 1, r =>
    (RateLimiter.wait (ctxs n) (nows n) (fuels n) 0
      (waitSeq ctxs nows fuels n r)).2.1

/-- All three counters at or below their ceilings, and non-negative. -/
def RLInv (r : RateLimiter) : Prop :=
  0 ≤ r.secCount ∧ r.secCount ≤ r.requestsPerSecond ∧
  0 ≤ r.minCount ∧ r.minCount ≤ r.requestsPerMinute ∧
  0 ≤ r.hrCount ∧ r.hrCount ≤ r.requestsPerHour

/-- All three counters strictly below their ceilings: the admission test. -/
def countsLT (r : RateLimiter) : Prop :=
  r.secCount < r.requestsPerSecond ∧ r.minCount < r.requestsPerMinute ∧
  r.hrCount < r.requestsPerHour

/-! ### Two concurrent Wait calls, interleaved.

In the Go code the lock is taken and released inside canProceed, and taken
again inside increment; between the two, another goroutine may run its own
canProceed.  Each lock-protected section is one atomic step here.  A thread
executes the first iteration of the Wait loop: canProceed, then, if it was
admitted, increment. -/

inductive ThreadPC where
  | beforeCheck
  | willIncrement
  | admitted
  | blocked
deriving DecidableEq

structure RaceState where
  rl : RateLimiter
  pcA : ThreadPC
  pcB : ThreadPC
deriving DecidableEq

/-- One atomic (lock-protected) step of the chosen thread of its Wait body. -/
def raceStep (now : Time) (s : RaceState) (tid : Bool) : RaceState :=
  match (if tid then s.pcA else s.pcB) with
  | ThreadPC.beforeCheck =>
    let p := canProceed s.rl now
    let pc := if p.1 then ThreadPC.willIncrement else ThreadPC.blocked
    if tid then { s with rl := p.2, pcA := pc } else { s with rl := p.2, pcB := pc }
  | ThreadPC.willIncrement =>
    if tid then { s with rl := increment s.rl, pcA := ThreadPC.admitted }
    else { s with rl := increment s.rl, pcB := ThreadPC.admitted }
  | _ => s

/-- Run an interleaving schedule (list of thread ids) from a state. -/
def raceRun (now : Time) (sched : List Bool) (s : RaceState) : RaceState :=
  sched.foldl (raceStep now) s

/-! ## ResilientClient (internal/httpclient/client.go)

Client.Do wraps the retry loop around a closure that first acquires the
rate limiter, then performs one transport call, then decides retryability
from the status code.  The closure captures the resp variable.  We inline
Retryer.Do specialised to that closure, threading the shared state through
the loop.  A response is identified by the index of the transport call that
produced it; transport is the stream of outcomes of the successive calls of
c.httpClient.Do. -/

/-- An http.Response as far as this layer inspects it: its status code and
the identity of the transport call that produced it. -/
structure HResponse where
  status : Int
  idx : Nat
deriving DecidableEq

/-- The nil check and loop over c.retryOnStatus, comparing the response
status code with each configured status. -/
def statusRetryable (retryOnStatus : Option (List Nat)) (status : Int) : Bool :=
  match retryOnStatus with
  | none => false
  | some l => l.any (fun u => status == (u : Int))

/-- Configuration of a Client, as set up by NewClient from ClientConfig. -/
structure Client where
  requestsPerSecond : Int
  requestsPerMinute : Int
  requestsPerHour : Int
  maxRetries : Nat
  baseDelay : Int
  maxDelay : Int
  retryOnStatus : Option (List Nat)
deriving DecidableEq

/-- The mutable state threaded through one Client.Do call: the next context
observation index, the shared limiter, the captured resp variable, the set
of transport-call indices whose response body has been closed, the number
of transport calls made, and (ghost, for observation only) the list of
(shouldRetry, err) values the closure has returned. -/
structure CState (eps : Type) where
  instant : Nat
  rl : RateLimiter
  resp : Option HResponse
  closed : List Nat
  tcalls : Nat
  reports : List (Bool × Option eps)
deriving DecidableEq

def initCState (eps : Type) (c : Client) (t0 : Time) : CState eps :=
  { instant := 0
    rl := newRateLimiter c.requestsPerSecond c.requestsPerMinute c.requestsPerHour t0
    resp := none
    closed := []
    tcalls := 0
    reports := [] }

/-- The attempt closure of Client.Do.  Returns none when the rate limiter
is still blocked when its poll bound runs out (the closure never returns),
otherwise the (shouldRetry, err) pair, along with the updated state. -/
def clientAttempt {eps : Type} (c : Client) (ctx : Nat → Option eps)
    (now : Nat → Time) (transport : Nat → Except eps Int) (wfuel : Nat)
    (s : CState eps) : Option (Bool × Option eps) × CState eps :=
  match RateLimiter.wait ctx now wfuel s.instant s.rl with
  | (none, rl2, i2) => (none, { s with rl := rl2, instant := i2 })
  | (some (some e), rl2, i2) =>
    (some (false, some e), { s with rl := rl2, instant := i2 })
  | (some none, rl2, i2) =>
    let s1 : CState eps := { s with rl := rl2, instant := i2 }
    match transport s1.tcalls with
    | Except.error e =>
      (some (true, some e), { s1 with resp := none, tcalls := s1.tcalls + 1 })
    | Except.ok st =>
      let r : HResponse := ⟨st, s1.tcalls⟩
      let s2 : CState eps := { s1 with resp := some r, tcalls := s1.tcalls + 1 }
      if statusRetryable c.retryOnStatus st then
        (some (true, none), { s2 with closed := r.idx :: s2.closed })
      else (some (false, none), s2)

/-- The retry loop of Client.Do: Retryer.Do inlined at the attempt closure.
Mirrors Retryer.doAux; the context observations use the threaded instant
counter because the closure also observes the context (inside Wait). -/
def clientLoop {eps : Type} (c : Client) (ctx : Nat → Option eps)
    (now : Nat → Time) (transport : Nat → Except eps Int) (wfuel : Nat) :
    Nat → Nat → CState eps → Option eps → Option (Option eps) × CState eps
  | 0, _, s, lastErr => (some lastErr, s)
  | fuel + 1, attempt, s, _lastErr =>
    match ctx s.instant with
    | some e => (some (some e), { s with instant := s.instant + 1 })
    | none =>
      let s1 : CState eps := { s with instant := s.instant + 1 }
      match clientAttempt c ctx now transport wfuel s1 with
      | (none, s2) => (none, s2)
      | (some res, s2) =>
        let s3 : CState eps := { s2 with reports := s2.reports ++ [res] }
        if res.1 then
          if attempt < c.maxRetries then
            match ctx s3.instant with
            | some e => (some (some e), { s3 with instant := s3.instant + 1 })
            | none =>
              clientLoop c ctx now transport wfuel fuel (attempt + 1)
                { s3 with instant := s3.instant + 1 } res.2
          else clientLoop c ctx now transport wfuel fuel (attempt + 1) s3 res.2
        else (some res.2, s3)

/-- Client.Do: the retry loop from attempt 0 on a fresh state whose limiter
was created at time t0.  The first component is none if the call never
returns within the poll bound, some err if the retry loop returned err (the
response handed back with it is in the resp field of the final state). -/
def Client.Do {eps : Type} (c : Client) (ctx : Nat → Option eps)
    (now : Nat → Time) (transport : Nat → Except eps Int) (wfuel : Nat)
    (t0 : Time) : Option (Option eps) × CState eps :=
  clientLoop c ctx now transport wfuel ((c.maxRetries + 1) % 2 ^ 64) 0
    (initCState eps c t0) none

example :
    (Client.Do ⟨100, 1000, 10000, 3, 10, 100, some [500, 502]⟩
      (fun _ => (none : Option Nat)) (fun _ => 0)
      (fun n => if n < 2 then Except.error 0 else Except.ok 200) 1 0).2.tcalls
      = 3 := by decide

example :
    (Client.Do ⟨100, 1000, 10000, 3, 10, 100, some [500, 502]⟩
      (fun _ => (none : Option Nat)) (fun _ => 0)
      (fun n => if n < 2 then Except.ok 500 else Except.ok 200) 1 0)
      = ((some none : Option (Option Nat)),
        ⟨8, ⟨3, 3, 3, secondNs, minuteNs, hourNs, 100, 1000, 10000⟩,
          some ⟨200, 2⟩, [1, 0], 3,
          [(true, none), (true, none), (false, none)]⟩) := by decide

/-! ## Lemmas about the rate limiter -/

theorem resetIfNeeded_def (r : RateLimiter) (now : Time) :
    resetIfNeeded r now =
      ⟨if r.secReset < now then 0 else r.secCount,
        if r.minReset < now then 0 else r.minCount,
        if r.hrReset < now then 0 else r.hrCount,
        if r.secReset < now then now + secondNs else r.secReset,
        if r.minReset < now then now + minuteNs else r.minReset,
        if r.hrReset < now then now + hourNs else r.hrReset,
        r.requestsPerSecond, r.requestsPerMinute, r.requestsPerHour⟩ := by
  by_cases h1 : r.secReset < now <;> by_cases h2 : r.minReset < now <;>
    by_cases h3 : r.hrReset < now <;>
    simp [resetIfNeeded, h1, h2, h3]

theorem canProceed_snd (r : RateLimiter) (now : Time) :
    (canProceed r now).2 = resetIfNeeded r now := rfl

theorem canProceed_fst_iff (r : RateLimiter) (now : Time) :
    (canProceed r now).1 = true ↔ countsLT (resetIfNeeded r now) := by
  simp [canProceed, countsLT, Bool.and_eq_true, decide_eq_true_eq, and_assoc]

theorem rlinv_resetIfNeeded {r : RateLimiter} (now : Time) (h : RLInv r) :
    RLInv (resetIfNeeded r now) := by
  obtain ⟨h1, h2, h3, h4, h5, h6⟩ := h
  rw [RLInv, resetIfNeeded_def]
  dsimp only
  split_ifs <;> omega

theorem rlinv_increment {r : RateLimiter} (h : RLInv r) (hlt : countsLT r) :
    RLInv (increment r) := by
  obtain ⟨h1, h2, h3, h4, h5, h6⟩ := h
  obtain ⟨l1, l2, l3⟩ := hlt
  simp only [RLInv, increment]
  omega

/-- Invariant preservation and characterisation of admission for one Wait
call, for any fuel, observation index and starting state. -/
theorem wait_spec {eps : Type} (ctx : Nat → Option eps) (now : Nat → Time) :
    ∀ (fuel i : Nat) (r : RateLimiter), RLInv r →
      RLInv (RateLimiter.wait ctx now fuel i r).2.1 ∧
      ((RateLimiter.wait ctx now fuel i r).1 = some none →
        ∃ j u, countsLT (resetIfNeeded u (now j)) ∧
          (RateLimiter.wait ctx now fuel i r).2.1
            = increment (resetIfNeeded u (now j))) := by
  intro fuel
  induction fuel with
  | zero =>
    intro i r h
    exact ⟨h, by intro hx; simp [RateLimiter.wait] at hx⟩
  | succ f ih =>
    intro i r h
    simp only [RateLimiter.wait]
    cases hc : ctx i with
    | some e => exact ⟨h, by intro hx; simp at hx⟩
    | none =>
      simp only []
      by_cases hp : (canProceed r (now i)).1
      · simp only [hp, if_true]
        have hlt : countsLT (resetIfNeeded r (now i)) :=
          (canProceed_fst_iff r (now i)).mp hp
        have hinv : RLInv (resetIfNeeded r (now i)) := rlinv_resetIfNeeded _ h
        constructor
        · rw [canProceed_snd]
          exact rlinv_increment hinv hlt
        · intro _
          exact ⟨i, r, hlt, by rw [canProceed_snd]⟩
      · simp only [hp, if_false]
        cases hc2 : ctx (i + 1) with
        | some e =>
          refine ⟨?_, by intro hx; simp at hx⟩
          rw [canProceed_snd]
          exact rlinv_resetIfNeeded _ h
        | none =>
          have := ih (i + 2) (canProceed r (now i)).2
            (by rw [canProceed_snd]; exact rlinv_resetIfNeeded _ h)
          exact this

/-! ## Claims about the rate limiter -/

/-- Claim C4: starting from construction, after any number of sequential
Wait calls the three window counters respect their ceilings, and a Wait
that is admitted did so at a reset-applied state where all three counters
were strictly below their ceilings, and left the limiter at exactly that
state with all three counters incremented by one. -/
theorem c4_window_invariants {eps : Type} (ps pm ph : Int) (t0 : Time)
    (h0 : 0 ≤ ps ∧ 0 ≤ pm ∧ 0 ≤ ph)
    (ctxs : Nat → Nat → Option eps) (nows : Nat → Nat → Time)
    (fuels : Nat → Nat) :
    ∀ n : Nat,
      RLInv (waitSeq ctxs nows fuels n (newRateLimiter ps pm ph t0)) ∧
      ((RateLimiter.wait (ctxs n) (nows n) (fuels n) 0
          (waitSeq ctxs nows fuels n (newRateLimiter ps pm ph t0))).1
            = some none →
        ∃ j u, countsLT (resetIfNeeded u (nows n j)) ∧
          waitSeq ctxs nows fuels (n + 1) (newRateLimiter ps pm ph t0)
            = increment (resetIfNeeded u (nows n j))) := by
  have hinit : RLInv (newRateLimiter ps pm ph t0) := by
    simp only [RLInv, newRateLimiter]
    omega
  have hseq : ∀ n,
      RLInv (waitSeq ctxs nows fuels n (newRateLimiter ps pm ph t0)) := by
    intro n
    induction n with
    | zero => exact hinit
    | succ n ih => exact (wait_spec (ctxs n) (nows n) (fuels n) 0 _ ih).1
  intro n
  refine ⟨hseq n, ?_⟩
  intro hadm
  have h2 := (wait_spec (ctxs n) (nows n) (fuels n) 0 _ (hseq n)).2 hadm
  simpa [waitSeq] using h2

/-- Witness for C4: one admitted Wait call from a fresh limiter with
ceilings 1, 2, 3 leaves the invariant intact. -/
theorem c4_witness :
    RLInv (waitSeq (fun _ _ => (none : Option Nat)) (fun _ _ => 0)
      (fun _ => 1) 1 (newRateLimiter 1 2 3 0)) :=
  (c4_window_invariants 1 2 3 0 (by norm_num) (fun _ _ => none) (fun _ _ => 0)
    (fun _ => 1) 1).1

/-- Claim C5 (the code violates it): the Go Wait takes the lock separately
in canProceed and in increment, so two concurrent Wait calls can both pass
the admission test before either increments.  On a limiter allowing 1
request per second, the interleaving A.canProceed, B.canProceed,
A.increment, B.increment admits both callers and drives the second-window
counter to 2, over the ceiling of 1.  A single serialized
decision-plus-increment step, as the claim describes, would make this
unreachable. -/
theorem c5_overadmission_race :
    (raceRun 0 [true, false, true, false]
        ⟨newRateLimiter 1 1000 100000 0, ThreadPC.beforeCheck,
          ThreadPC.beforeCheck⟩).pcA = ThreadPC.admitted ∧
      (raceRun 0 [true, false, true, false]
        ⟨newRateLimiter 1 1000 100000 0, ThreadPC.beforeCheck,
          ThreadPC.beforeCheck⟩).pcB = ThreadPC.admitted ∧
      (raceRun 0 [true, false, true, false]
        ⟨newRateLimiter 1 1000 100000 0, ThreadPC.beforeCheck,
          ThreadPC.beforeCheck⟩).rl.secCount = 2 ∧
      (raceRun 0 [true, false, true, false]
        ⟨newRateLimiter 1 1000 100000 0, ThreadPC.beforeCheck,
          ThreadPC.beforeCheck⟩).rl.requestsPerSecond = 1 := by
  refine ⟨?_, ?_, ?_, ?_⟩ <;> decide

/-- Claim C6: a completed Wait returns either nil (admitted) or an error
value observed on the cancellation stream; no other error, in particular no
distinct rate-limited error, is ever produced. -/
theorem c6_wait_error_is_cancellation {eps : Type} (ctx : Nat → Option eps)
    (now : Nat → Time) :
    ∀ (fuel i : Nat) (r : RateLimiter) (res : Option eps),
      (RateLimiter.wait ctx now fuel i r).1 = some res →
      res = none ∨ ∃ k e, res = some e ∧ ctx k = some e := by
  intro fuel
  induction fuel with
  | zero => intro i r res hx; simp [RateLimiter.wait] at hx
  | succ f ih =>
    intro i r res hx
    rw [RateLimiter.wait] at hx
    cases hc : ctx i with
    | some e =>
      rw [hc] at hx
      simp at hx
      exact Or.inr ⟨i, e, hx.symm ▸ rfl, hc⟩
    | none =>
      rw [hc] at hx
      simp only [] at hx
      by_cases hp : (canProceed r (now i)).1
      · rw [if_pos hp] at hx
        simp at hx
        exact Or.inl hx.symm
      · rw [if_neg hp] at hx
        cases hc2 : ctx (i + 1) with
        | some e =>
          rw [hc2] at hx
          simp at hx
          exact Or.inr ⟨i + 1, e, hx.symm ▸ rfl, hc2⟩
        | none =>
          rw [hc2] at hx
          exact ih _ _ _ hx

/-- Witness for C6: a context fired with error 7 makes Wait return exactly
that error. -/
theorem c6_witness :
    (some 7 : Option Nat) = none ∨
      ∃ k e, (some 7 : Option Nat) = some e ∧
        (fun _ : Nat => (some 7 : Option Nat)) k = some e :=
  c6_wait_error_is_cancellation (fun _ => some 7) (fun _ => 0) 1 0
    (newRateLimiter 1 1 1 0) (some 7) rfl

/-! ## Lemmas about the retryer -/

theorem int64Wrap_eq_self {x : Int} (h1 : -(2 ^ 63) ≤ x) (h2 : x < 2 ^ 63) :
    int64Wrap x = x := by
  have h64 : (2 : Int) ^ 64 = 2 ^ 63 + 2 ^ 63 := by norm_num
  have hl : 0 ≤ x + 2 ^ 63 := by linarith
  have hu : x + 2 ^ 63 < 2 ^ 64 := by linarith
  rw [int64Wrap, Int.emod_eq_of_lt hl hu]
  ring

theorem doAux_all_retry {eps : Type} (r : Retryer) (ctx : Nat → Option eps)
    (fn : Nat → Bool × Option eps)
    (hctx : ∀ i, ctx i = none) (hfn : ∀ k, (fn k).1 = true) :
    ∀ (fuel attempt : Nat) (lastErr : Option eps),
      attempt + fuel = r.maxRetries + 1 → 1 ≤ fuel →
      Retryer.doAux r ctx fn fuel attempt lastErr
        = ((fn r.maxRetries).2, r.maxRetries + 1) := by
  intro fuel
  induction fuel with
  | zero => intro attempt lastErr hsum h1; omega
  | succ f ih =>
    intro attempt lastErr hsum _h1
    rw [Retryer.doAux]
    simp only [hctx, hfn, if_true, ite_self]
    rcases Nat.eq_zero_or_pos f with hf | hf
    · subst hf
      have ha : attempt = r.maxRetries := by omega
      subst ha
      rw [Retryer.doAux]
    · exact ih (attempt + 1) (fn attempt).2 (by omega) hf

theorem doAux_cancel_at {eps : Type} (r : Retryer) (ctx : Nat → Option eps)
    (fn : Nat → Bool × Option eps) (e : eps) :
    ∀ (k fuel attempt : Nat) (lastErr : Option eps),
      (∀ j, j < k → ctx (2 * (attempt + j)) = none ∧
        ctx (2 * (attempt + j) + 1) = none ∧ (fn (attempt + j)).1 = true) →
      ctx (2 * (attempt + k)) = some e →
      k + 1 ≤ fuel →
      Retryer.doAux r ctx fn fuel attempt lastErr = (some e, attempt + k) := by
  intro k
  induction k with
  | zero =>
    intro fuel attempt lastErr _hprev hfire hfuel
    obtain ⟨f, rfl⟩ : ∃ f, fuel = f + 1 := ⟨fuel - 1, by omega⟩
    rw [Retryer.doAux]
    simp only [Nat.add_zero] at hfire
    simp [hfire]
  | succ k ih =>
    intro fuel attempt lastErr hprev hfire hfuel
    obtain ⟨f, rfl⟩ : ∃ f, fuel = f + 1 := ⟨fuel - 1, by omega⟩
    rw [Retryer.doAux]
    obtain ⟨hc0, hc1, hf0⟩ := hprev 0 (Nat.succ_pos k)
    simp only [Nat.add_zero] at hc0 hc1 hf0
    rw [hc0]
    simp only [hf0, if_true, hc1, ite_self]
    have hrec := ih f (attempt + 1) (fn attempt).2
      (by
        intro j hj
        have := hprev (j + 1) (by omega)
        constructor
        · have h := this.1
          rw [show attempt + (j + 1) = attempt + 1 + j by omega] at h
          exact h
        constructor
        · have h := this.2.1
          rw [show attempt + (j + 1) = attempt + 1 + j by omega] at h
          exact h
        · have h := this.2.2
          rw [show attempt + (j + 1) = attempt + 1 + j by omega] at h
          exact h)
      (by
        rw [show 2 * (attempt + 1 + k) = 2 * (attempt + (k + 1)) by omega]
        exact hfire)
      (by omega)
    rw [hrec]
    rw [show attempt + 1 + k = attempt + (k + 1) by omega]

/-! ## Claims about the retryer -/

/-- Claim C1 (amended): provided maxRetries + 1 does not overflow uint64,
Retryer.Do with a never-fired context and an attempt function that always
asks to retry calls the attempt function exactly maxRetries + 1 times and
returns the error of the last call. -/
theorem c1_always_retry_calls {eps : Type} (r : Retryer) (ctx : Nat → Option eps)
    (fn : Nat → Bool × Option eps)
    (hwrap : r.maxRetries + 1 < 2 ^ 64)
    (hctx : ∀ i, ctx i = none)
    (hfn : ∀ k, (fn k).1 = true) :
    Retryer.Do r ctx fn = ((fn r.maxRetries).2, r.maxRetries + 1) := by
  rw [Retryer.Do, Nat.mod_eq_of_lt hwrap]
  exact doAux_all_retry r ctx fn hctx hfn (r.maxRetries + 1) 0 none (by omega)
    (by omega)

/-- Witness for C1: maxRetries 2, the attempt function is called 3 times and
the error of call number 2 comes back. -/
theorem c1_witness :
    Retryer.Do ⟨2, 5, 50⟩ (fun _ => (none : Option Nat))
      (fun k => (true, some k)) = (some 2, 3) :=
  c1_always_retry_calls ⟨2, 5, 50⟩ _ _ (by norm_num) (fun _ => rfl)
    (fun _ => rfl)

/-- Counterexample for C1 as stated: at maxRetries = 2^64 - 1 the uint loop
bound maxRetries + 1 wraps to 0, the attempt function is never called and
Do returns nil, not the last error after 2^64 calls. -/
theorem c1_counterexample :
    Retryer.Do ⟨2 ^ 64 - 1, 0, 0⟩ (fun _ => (none : Option Nat))
        (fun k => (true, some k)) = (none, 0) ∧
      Retryer.Do ⟨2 ^ 64 - 1, 0, 0⟩ (fun _ => (none : Option Nat))
        (fun k => (true, some k))
        ≠ (some (2 ^ 64 - 1), 2 ^ 64 - 1 + 1) := by
  constructor
  · decide
  · decide

/-- Claim C2 (amended): when baseDelay is non-negative and the product
baseDelay * 2^k stays below 2^63 (no int64 overflow), the computed backoff
is min(baseDelay * 2^k, maxDelay); in particular baseDelay = 0 gives delay
0 at every attempt whenever maxDelay is non-negative. -/
theorem c2_backoff_formula (r : Retryer) (k : Nat)
    (h0 : 0 ≤ r.baseDelay) (hov : r.baseDelay * 2 ^ k < 2 ^ 63) :
    r.calculateBackoff k = min (r.baseDelay * 2 ^ k) r.maxDelay ∧
      (r.baseDelay = 0 → 0 ≤ r.maxDelay → r.calculateBackoff k = 0) := by
  have hpow : (0 : Int) < 2 ^ k := pow_pos (by norm_num) k
  rcases eq_or_lt_of_le h0 with hb | hb
  · have hz : r.baseDelay = 0 := hb.symm
    have hcalc : r.calculateBackoff k = min 0 r.maxDelay := by
      rw [Retryer.calculateBackoff, hz]
      simp only [zero_mul]
      rw [show int64Wrap 0 = 0 from by decide]
    refine ⟨?_, ?_⟩
    · rw [hcalc, hz, zero_mul]
    · intro _ hmd
      rw [hcalc]
      omega
  · have h1 : (1 : Int) ≤ r.baseDelay := hb
    have hple : (2 : Int) ^ k ≤ r.baseDelay * 2 ^ k := by
      calc (2 : Int) ^ k = 1 * 2 ^ k := (one_mul _).symm
        _ ≤ r.baseDelay * 2 ^ k :=
          mul_le_mul_of_nonneg_right h1 (le_of_lt hpow)
    have hprodpos : (0 : Int) ≤ r.baseDelay * 2 ^ k := by positivity
    have hc63 : (0 : Int) < 2 ^ 63 := by norm_num
    have hwp : int64Wrap (2 ^ k) = 2 ^ k :=
      int64Wrap_eq_self (by linarith) (by linarith)
    have hwm : int64Wrap (r.baseDelay * 2 ^ k) = r.baseDelay * 2 ^ k :=
      int64Wrap_eq_self (by linarith) hov
    refine ⟨?_, ?_⟩
    · rw [Retryer.calculateBackoff, hwp, hwm]
    · intro hz
      omega

/-- Witness for C2: baseDelay 100, maxDelay 1000, attempt 3 gives 800. -/
theorem c2_witness :
    Retryer.calculateBackoff ⟨5, 100, 1000⟩ 3
        = min ((100 : Int) * 2 ^ 3) 1000 ∧
      ((100 : Int) = 0 → (0 : Int) ≤ 1000 →
        Retryer.calculateBackoff ⟨5, 100, 1000⟩ 3 = 0) :=
  c2_backoff_formula ⟨5, 100, 1000⟩ 3 (by norm_num) (by norm_num)

/-- Counterexample for C2 as stated: at attempt 63 with baseDelay 1ns the
int64 shift 1 << 63 wraps to -2^63, so the computed delay is -2^63 and not
min(1 * 2^63, maxDelay). -/
theorem c2_counterexample :
    Retryer.calculateBackoff ⟨70, 1, 1000⟩ 63 = -(2 ^ 63) ∧
      Retryer.calculateBackoff ⟨70, 1, 1000⟩ 63
        ≠ min ((1 : Int) * 2 ^ 63) 1000 := by
  constructor
  · decide
  · decide

/-- Claim C8 (amended): provided maxRetries + 1 does not overflow uint64,
if the run reaches the top of iteration k (every earlier iteration asked to
retry with the context silent) and the context has fired there with error
e, Do returns e after exactly k calls of the attempt function: the attempt
function is not invoked at iteration k.  k = 0 is cancellation before any
attempt, with zero invocations. -/
theorem c8_cancelled_before_attempt {eps : Type} (r : Retryer)
    (ctx : Nat → Option eps) (fn : Nat → Bool × Option eps) (k : Nat) (e : eps)
    (hwrap : r.maxRetries + 1 < 2 ^ 64)
    (hk : k ≤ r.maxRetries)
    (hprev : ∀ j, j < k → ctx (2 * j) = none ∧ ctx (2 * j + 1) = none ∧
      (fn j).1 = true)
    (hfire : ctx (2 * k) = some e) :
    Retryer.Do r ctx fn = (some e, k) := by
  rw [Retryer.Do, Nat.mod_eq_of_lt hwrap]
  have := doAux_cancel_at r ctx fn e k (r.maxRetries + 1) 0 none
    (by intro j hj; simpa using hprev j hj)
    (by simpa using hfire) (by omega)
  simpa using this

/-- Witness for C8: context fired from the start, zero invocations. -/
theorem c8_witness :
    Retryer.Do ⟨2, 5, 50⟩ (fun _ => (some 5 : Option Nat))
      (fun _ => (true, none)) = (some 5, 0) :=
  c8_cancelled_before_attempt ⟨2, 5, 50⟩ _ _ 0 5 (by norm_num) (by omega)
    (by intro j hj; omega) rfl

/-- Counterexample for C8 as stated: at maxRetries = 2^64 - 1 the loop bound
wraps to 0, so Do returns nil even though the context has already fired;
the cancellation error is never surfaced. -/
theorem c8_counterexample :
    Retryer.Do ⟨2 ^ 64 - 1, 0, 0⟩ (fun _ => (some 5 : Option Nat))
        (fun _ => (true, none)) = (none, 0) ∧
      Retryer.Do ⟨2 ^ 64 - 1, 0, 0⟩ (fun _ => (some 5 : Option Nat))
        (fun _ => (true, none)) ≠ (some 5, 0) := by
  constructor
  · decide
  · decide

/-! ## Lemmas about the client -/

/-- A Wait with the context silent and every counter strictly below its
ceiling admits on its first poll iteration. -/
theorem wait_grants {eps : Type} (ctx : Nat → Option eps) (now : Nat → Time)
    (hctx : ∀ k, ctx k = none) (wfuel : Nat) (hw : 1 ≤ wfuel) (i : Nat)
    (r : RateLimiter)
    (hsec : 0 ≤ r.secCount ∧ r.secCount < r.requestsPerSecond)
    (hmin : 0 ≤ r.minCount ∧ r.minCount < r.requestsPerMinute)
    (hhr : 0 ≤ r.hrCount ∧ r.hrCount < r.requestsPerHour) :
    RateLimiter.wait ctx now wfuel i r
      = (some none, increment (resetIfNeeded r (now i)), i + 1) := by
  obtain ⟨f, rfl⟩ : ∃ f, wfuel = f + 1 := ⟨wfuel - 1, by omega⟩
  rw [RateLimiter.wait, hctx i]
  have hp : (canProceed r (now i)).1 = true := by
    rw [canProceed_fst_iff, countsLT, resetIfNeeded_def]
    dsimp only
    split_ifs <;> omega
  simp only [hp, if_true, canProceed_snd]

/-- The attempt closure when the limiter admits at once, the transport
returns a response and its status is retryable: the body is closed, the
response recorded, and (shouldRetry, err) = (true, nil). -/
theorem clientAttempt_retryable {eps : Type} (c : Client) (now : Nat → Time)
    (st : Nat → Int) (transport : Nat → Except eps Int) (wfuel : Nat)
    (ht : ∀ n, transport n = Except.ok (st n))
    (hr : ∀ n, statusRetryable c.retryOnStatus (st n) = true)
    (hw : 1 ≤ wfuel) (s : CState eps)
    (hsec : 0 ≤ s.rl.secCount ∧ s.rl.secCount < s.rl.requestsPerSecond)
    (hmin : 0 ≤ s.rl.minCount ∧ s.rl.minCount < s.rl.requestsPerMinute)
    (hhr : 0 ≤ s.rl.hrCount ∧ s.rl.hrCount < s.rl.requestsPerHour) :
    clientAttempt c (fun _ => none) now transport wfuel s
      = (some (true, none),
        { s with
          instant := s.instant + 1
          rl := increment (resetIfNeeded s.rl (now s.instant))
          resp := some ⟨st s.tcalls, s.tcalls⟩
          tcalls := s.tcalls + 1
          closed := s.tcalls :: s.closed }) := by
  unfold clientAttempt
  rw [wait_grants (fun _ => none) now (fun _ => rfl) wfuel hw s.instant s.rl
    hsec hmin hhr]
  simp only [ht, hr, if_true]

/-- The attempt closure when Wait returns a context error: it reports
(shouldRetry, err) = (false, that error) and nothing else changes. -/
theorem clientAttempt_err {eps : Type} (c : Client) (ctx : Nat → Option eps)
    (now : Nat → Time) (transport : Nat → Except eps Int) (wfuel : Nat)
    (s : CState eps) (rl2 : RateLimiter) (i2 : Nat) (e : eps)
    (h : RateLimiter.wait ctx now wfuel s.instant s.rl
      = (some (some e), rl2, i2)) :
    clientAttempt c ctx now transport wfuel s
      = (some (false, some e), { s with rl := rl2, instant := i2 }) := by
  unfold clientAttempt
  rw [h]

/-- With the second-window ceiling 0 and a context that stays silent before
observation N and is fired from N on, Wait never admits and returns the
fired error (given enough poll fuel to reach N). -/
theorem wait_zero_cancel {eps : Type} (ctx : Nat → Option eps)
    (now : Nat → Time) (e : eps) (N : Nat)
    (hpre : ∀ i, i < N → ctx i = none)
    (hpost : ∀ i, N ≤ i → ctx i = some e) :
    ∀ (fuel i : Nat) (r : RateLimiter),
      1 ≤ fuel → N + 1 ≤ i + 2 * fuel →
      0 ≤ r.secCount → r.requestsPerSecond = 0 →
      ∃ rl2 i2, RateLimiter.wait ctx now fuel i r
        = (some (some e), rl2, i2) := by
  intro fuel
  induction fuel with
  | zero => intro i r h1; omega
  | succ f ih =>
    intro i r _h1 hbound hc hlim
    rw [RateLimiter.wait]
    by_cases hi : N ≤ i
    · rw [hpost i hi]
      exact ⟨r, i + 1, rfl⟩
    · push_neg at hi
      rw [hpre i hi]
      have hfalse : ¬ ((resetIfNeeded r (now i)).secCount
          < (resetIfNeeded r (now i)).requestsPerSecond) := by
        rw [resetIfNeeded_def]
        dsimp only
        split_ifs <;> omega
      have hp : (canProceed r (now i)).1 = false := by
        rw [canProceed]
        simp [hfalse]
      simp only [hp, Bool.false_eq_true, if_false]
      by_cases hi1 : N ≤ i + 1
      · rw [hpost (i + 1) hi1]
        exact ⟨_, _, rfl⟩
      · push_neg at hi1
        rw [hpre (i + 1) hi1]
        rw [canProceed_snd]
        apply ih (i + 2) (resetIfNeeded r (now i)) (by omega) (by omega)
        · rw [resetIfNeeded_def]
          dsimp only
          split_ifs <;> omega
        · rw [resetIfNeeded_def]
          exact hlim

/-- The body-release invariant: any stored response whose status is in the
configured retryable set has had its body closed. -/
def CInv {eps : Type} (c : Client) (s : CState eps) : Prop :=
  ∀ h : HResponse, s.resp = some h →
    statusRetryable c.retryOnStatus h.status = true → h.idx ∈ s.closed

theorem cinv_clientAttempt {eps : Type} (c : Client) (ctx : Nat → Option eps)
    (now : Nat → Time) (transport : Nat → Except eps Int) (wfuel : Nat)
    (s : CState eps) (h : CInv c s) :
    CInv c (clientAttempt c ctx now transport wfuel s).2 := by
  unfold clientAttempt
  split
  · intro hr hresp hst
    exact h hr hresp hst
  · intro hr hresp hst
    exact h hr hresp hst
  · dsimp only
    split
    · intro hr hresp _hst
      simp at hresp
    · split
      · intro hr hresp _hst
        simp only [CState.resp] at hresp
        rw [Option.some_inj] at hresp
        rw [← hresp]
        exact List.mem_cons_self _ _
      · rename_i stc hst0
        intro hr hresp hst
        simp only [CState.resp] at hresp
        rw [Option.some_inj] at hresp
        rw [← hresp] at hst
        exact absurd hst hst0

theorem cinv_clientLoop {eps : Type} (c : Client) (ctx : Nat → Option eps)
    (now : Nat → Time) (transport : Nat → Except eps Int) (wfuel : Nat) :
    ∀ (fuel attempt : Nat) (s : CState eps) (lastErr : Option eps),
      CInv c s →
      CInv c (clientLoop c ctx now transport wfuel fuel attempt s lastErr).2 := by
  intro fuel
  induction fuel with
  | zero => intro attempt s lastErr h; exact h
  | succ f ih =>
    intro attempt s lastErr h
    rw [clientLoop]
    split
    · intro hr hresp hst
      exact h hr hresp hst
    · have h1 : CInv c ({ s with instant := s.instant + 1 } : CState eps) := by
        intro hr hresp hst
        exact h hr hresp hst
      dsimp only
      split
      · rename_i s2 ha
        have h2 := cinv_clientAttempt c ctx now transport wfuel
          { s with instant := s.instant + 1 } h1
        rw [ha] at h2
        exact h2
      · rename_i res s2 ha
        have h2 : CInv c s2 := by
          have h2x := cinv_clientAttempt c ctx now transport wfuel
            { s with instant := s.instant + 1 } h1
          rw [ha] at h2x
          exact h2x
        have h3 : CInv c
            ({ s2 with reports := s2.reports ++ [res] } : CState eps) := by
          intro hr hresp hst
          exact h2 hr hresp hst
        split
        · split
          · split
            · intro hr hresp hst
              exact h3 hr hresp hst
            · exact ih _ _ _ h3
          · exact ih _ _ _ h3
        · exact h3

/-- Counters and ceilings of the limiter after a reset-then-increment step. -/
theorem increment_reset_facts (r : RateLimiter) (t : Time) :
    (increment (resetIfNeeded r t)).requestsPerSecond = r.requestsPerSecond ∧
    (increment (resetIfNeeded r t)).requestsPerMinute = r.requestsPerMinute ∧
    (increment (resetIfNeeded r t)).requestsPerHour = r.requestsPerHour ∧
    (increment (resetIfNeeded r t)).secCount
      = (if r.secReset < t then 0 else r.secCount) + 1 ∧
    (increment (resetIfNeeded r t)).minCount
      = (if r.minReset < t then 0 else r.minCount) + 1 ∧
    (increment (resetIfNeeded r t)).hrCount
      = (if r.hrReset < t then 0 else r.hrCount) + 1 := by
  rw [resetIfNeeded_def]
  simp [increment]

/-- The retry loop of a client whose every transport response carries a
retryable status and whose ceilings exceed maxRetries: every iteration goes
the retryable way, and at exhaustion the loop hands back nil with the last
response stored and maxRetries + 1 transport calls made. -/
theorem clientLoop_all_retryable {eps : Type} (c : Client)
    (st : Nat → Int) (transport : Nat → Except eps Int) (now : Nat → Time)
    (wfuel : Nat)
    (ht : ∀ n, transport n = Except.ok (st n))
    (hre : ∀ n, statusRetryable c.retryOnStatus (st n) = true)
    (hls : (c.maxRetries : Int) < c.requestsPerSecond)
    (hlm : (c.maxRetries : Int) < c.requestsPerMinute)
    (hlh : (c.maxRetries : Int) < c.requestsPerHour)
    (hw : 1 ≤ wfuel) :
    ∀ (fuel attempt : Nat) (s : CState eps) (lastErr : Option eps),
      attempt + fuel = c.maxRetries + 1 → 1 ≤ fuel →
      s.tcalls = attempt →
      s.rl.requestsPerSecond = c.requestsPerSecond →
      s.rl.requestsPerMinute = c.requestsPerMinute →
      s.rl.requestsPerHour = c.requestsPerHour →
      (0 ≤ s.rl.secCount ∧ s.rl.secCount ≤ (attempt : Int)) →
      (0 ≤ s.rl.minCount ∧ s.rl.minCount ≤ (attempt : Int)) →
      (0 ≤ s.rl.hrCount ∧ s.rl.hrCount ≤ (attempt : Int)) →
      (clientLoop c (fun _ => none) now transport wfuel fuel attempt
          s lastErr).1 = some none ∧
      (clientLoop c (fun _ => none) now transport wfuel fuel attempt
          s lastErr).2.resp = some ⟨st c.maxRetries, c.maxRetries⟩ ∧
      (clientLoop c (fun _ => none) now transport wfuel fuel attempt
          s lastErr).2.tcalls = c.maxRetries + 1 := by
  intro fuel
  induction fuel with
  | zero => intro attempt s lastErr h1 h2; omega
  | succ f ih =>
    intro attempt s lastErr hsum _h2 htc heqs heqm heqh hbs hbm hbh
    have hattle : attempt ≤ c.maxRetries := by omega
    have hsec : 0 ≤ s.rl.secCount ∧ s.rl.secCount < s.rl.requestsPerSecond := by
      omega
    have hmin : 0 ≤ s.rl.minCount ∧ s.rl.minCount < s.rl.requestsPerMinute := by
      omega
    have hhr : 0 ≤ s.rl.hrCount ∧ s.rl.hrCount < s.rl.requestsPerHour := by
      omega
    rw [clientLoop]
    dsimp only
    rw [clientAttempt_retryable c now st transport wfuel ht hre hw
      { s with instant := s.instant + 1 } hsec hmin hhr]
    dsimp only
    obtain ⟨hf1, hf2, hf3, hf4, hf5, hf6⟩ :=
      increment_reset_facts s.rl (now (s.instant + 1))
    by_cases hatt : attempt < c.maxRetries
    · rw [if_pos hatt]
      rw [htc]
      refine ih (attempt + 1) _ none (by omega) (by omega) rfl ?_ ?_ ?_ ?_ ?_ ?_
      · rw [CState.rl, hf1, heqs]
      · rw [CState.rl, hf2, heqm]
      · rw [CState.rl, hf3, heqh]
      · rw [CState.rl, hf4]
        constructor <;> split_ifs <;> omega
      · rw [CState.rl, hf5]
        constructor <;> split_ifs <;> omega
      · rw [CState.rl, hf6]
        constructor <;> split_ifs <;> omega
    · rw [if_neg hatt]
      have hae : attempt = c.maxRetries := by omega
      have hfz : f = 0 := by omega
      subst hfz
      rw [clientLoop]
      refine ⟨rfl, ?_, ?_⟩
      · rw [htc, hae]
        rfl
      · rw [htc, hae]
        rfl

/-! ## Claims about the client -/

/-- Claim C3: if every transport response has a status in the configured
retryable set, the ceilings leave room for every attempt and the context
never fires, then after using up all maxRetries + 1 attempts Client.Do
hands back the response of the last transport call together with a nil
error: exhausting retries on a retryable status is not an error. -/
theorem c3_exhaustion_returns_last_response {eps : Type} (c : Client)
    (st : Nat → Int) (transport : Nat → Except eps Int) (now : Nat → Time)
    (wfuel : Nat) (t0 : Time)
    (hwrap : c.maxRetries + 1 < 2 ^ 64)
    (ht : ∀ n, transport n = Except.ok (st n))
    (hre : ∀ n, statusRetryable c.retryOnStatus (st n) = true)
    (hls : (c.maxRetries : Int) < c.requestsPerSecond)
    (hlm : (c.maxRetries : Int) < c.requestsPerMinute)
    (hlh : (c.maxRetries : Int) < c.requestsPerHour)
    (hw : 1 ≤ wfuel) :
    (Client.Do c (fun _ => none) now transport wfuel t0).1 = some none ∧
    (Client.Do c (fun _ => none) now transport wfuel t0).2.resp
      = some ⟨st c.maxRetries, c.maxRetries⟩ ∧
    (Client.Do c (fun _ => none) now transport wfuel t0).2.tcalls
      = c.maxRetries + 1 := by
  unfold Client.Do
  rw [Nat.mod_eq_of_lt hwrap]
  exact clientLoop_all_retryable c st transport now wfuel ht hre hls hlm hlh hw
    (c.maxRetries + 1) 0 (initCState eps c t0) none (by omega) (by omega) rfl
    rfl rfl rfl (by simp [initCState, newRateLimiter])
    (by simp [initCState, newRateLimiter]) (by simp [initCState, newRateLimiter])

/-- Witness for C3: maxRetries 2, every response 500 and 500 retryable:
3 transport calls, the third response handed back, nil error. -/
theorem c3_witness :
    (Client.Do ⟨10, 10, 10, 2, 1, 1, some [500]⟩ (fun _ => (none : Option Nat))
        (fun _ => 0) (fun _ => Except.ok 500) 1 0).1 = some none ∧
    (Client.Do ⟨10, 10, 10, 2, 1, 1, some [500]⟩ (fun _ => (none : Option Nat))
        (fun _ => 0) (fun _ => Except.ok 500) 1 0).2.resp = some ⟨500, 2⟩ ∧
    (Client.Do ⟨10, 10, 10, 2, 1, 1, some [500]⟩ (fun _ => (none : Option Nat))
        (fun _ => 0) (fun _ => Except.ok 500) 1 0).2.tcalls = 3 :=
  c3_exhaustion_returns_last_response ⟨10, 10, 10, 2, 1, 1, some [500]⟩
    (fun _ => 500) (fun _ => Except.ok 500) (fun _ => 0) 1 0 (by norm_num)
    (fun _ => rfl) (fun _ => rfl) (by norm_num) (by norm_num)
    (by norm_num) (by norm_num)

/-- Claim C7 (amended): with all three ceilings 0, maxRetries + 1 not
overflowing uint64 and a deadline that has not yet fired at entry (N is at
least 1) but fires from observation N on, Client.Do returns the deadline
error, makes zero transport calls, hands back no response, and the attempt
closure reported exactly once, with shouldRetry = false: the failure is not
retried. -/
theorem c7_zero_limits_deadline {eps : Type} (c : Client) (e : eps) (N : Nat)
    (ctx : Nat → Option eps) (now : Nat → Time)
    (transport : Nat → Except eps Int) (wfuel : Nat) (t0 : Time)
    (hwrap : c.maxRetries + 1 < 2 ^ 64)
    (hps : c.requestsPerSecond = 0)
    (_hpm : c.requestsPerMinute = 0)
    (_hph : c.requestsPerHour = 0)
    (hN : 1 ≤ N)
    (hpre : ∀ i, i < N → ctx i = none)
    (hpost : ∀ i, N ≤ i → ctx i = some e)
    (hwf : N ≤ 2 * wfuel) :
    (Client.Do c ctx now transport wfuel t0).1 = some (some e) ∧
    (Client.Do c ctx now transport wfuel t0).2.tcalls = 0 ∧
    (Client.Do c ctx now transport wfuel t0).2.resp = none ∧
    (Client.Do c ctx now transport wfuel t0).2.reports
      = [(false, some e)] := by
  have hwfuel1 : 1 ≤ wfuel := by omega
  obtain ⟨rl2, i2, hwait⟩ := wait_zero_cancel ctx now e N hpre hpost wfuel 1
    (newRateLimiter c.requestsPerSecond c.requestsPerMinute c.requestsPerHour t0)
    hwfuel1 (by omega) (by simp [newRateLimiter]) (by simp [newRateLimiter, hps])
  unfold Client.Do
  rw [Nat.mod_eq_of_lt hwrap]
  rw [clientLoop]
  simp only [initCState]
  rw [hpre 0 hN]
  dsimp only
  rw [clientAttempt_err c ctx now transport wfuel _ rl2 i2 e hwait]
  exact ⟨rfl, rfl, rfl, rfl⟩

/-- Witness for C7: ceilings 0, deadline firing from observation 1 on with
error 99: the deadline error comes back, no transport call is made, the
closure reported (false, 99) once. -/
theorem c7_witness :
    (Client.Do ⟨0, 0, 0, 3, 1, 1, none⟩
        (fun i => if i = 0 then none else some (99 : Nat)) (fun _ => 0)
        (fun _ => Except.ok 200) 1 0).1 = some (some 99) ∧
    (Client.Do ⟨0, 0, 0, 3, 1, 1, none⟩
        (fun i => if i = 0 then none else some (99 : Nat)) (fun _ => 0)
        (fun _ => Except.ok 200) 1 0).2.tcalls = 0 ∧
    (Client.Do ⟨0, 0, 0, 3, 1, 1, none⟩
        (fun i => if i = 0 then none else some (99 : Nat)) (fun _ => 0)
        (fun _ => Except.ok 200) 1 0).2.resp = none ∧
    (Client.Do ⟨0, 0, 0, 3, 1, 1, none⟩
        (fun i => if i = 0 then none else some (99 : Nat)) (fun _ => 0)
        (fun _ => Except.ok 200) 1 0).2.reports = [(false, some 99)] :=
  c7_zero_limits_deadline ⟨0, 0, 0, 3, 1, 1, none⟩ 99 1 _ _ _ 1 0 (by norm_num)
    rfl rfl rfl (by omega)
    (by intro i hi; have h0 : i = 0 := by omega
        subst h0; rfl)
    (by intro i hi; exact if_neg (by omega))
    (by omega)

/-- Counterexample for C7 as stated: at maxRetries = 2^64 - 1 the retry
loop bound wraps to 0, so with all ceilings 0 and a deadline already firing
Client.Do returns nil immediately instead of the deadline error. -/
theorem c7_counterexample :
    (Client.Do ⟨0, 0, 0, 2 ^ 64 - 1, 1, 1, none⟩
        (fun _ => (some 7 : Option Nat)) (fun _ => 0)
        (fun _ => Except.ok 200) 1 0).1 = some none ∧
    (Client.Do ⟨0, 0, 0, 2 ^ 64 - 1, 1, 1, none⟩
        (fun _ => (some 7 : Option Nat)) (fun _ => 0)
        (fun _ => Except.ok 200) 1 0).1 ≠ some (some 7) := by
  constructor
  · decide
  · decide

/-- Claim C9: retryOnStatus {500, 502}, transport yielding 500, 500, 200:
exactly 3 transport calls, the 200 response, nil error. -/
theorem c9_three_calls_then_200 :
    (Client.Do ⟨100, 1000, 10000, 3, 10, 100, some [500, 502]⟩
        (fun _ => (none : Option Nat)) (fun _ => 0)
        (fun n => if n < 2 then Except.ok 500 else Except.ok 200) 1 0).1
      = some none ∧
    (Client.Do ⟨100, 1000, 10000, 3, 10, 100, some [500, 502]⟩
        (fun _ => (none : Option Nat)) (fun _ => 0)
        (fun n => if n < 2 then Except.ok 500 else Except.ok 200) 1 0).2.tcalls
      = 3 ∧
    (Client.Do ⟨100, 1000, 10000, 3, 10, 100, some [500, 502]⟩
        (fun _ => (none : Option Nat)) (fun _ => 0)
        (fun n => if n < 2 then Except.ok 500 else Except.ok 200) 1 0).2.resp
      = some ⟨200, 2⟩ := by
  refine ⟨?_, ?_, ?_⟩ <;> decide

/-- Claim C10: whenever the response Client.Do hands back has a status in
the configured retryable set (the retries-exhausted-on-retryable-status
case), its body has already been closed. -/
theorem c10_exhausted_response_body_closed {eps : Type} (c : Client)
    (ctx : Nat → Option eps) (now : Nat → Time)
    (transport : Nat → Except eps Int) (wfuel : Nat) (t0 : Time)
    (r : HResponse)
    (hresp : (Client.Do c ctx now transport wfuel t0).2.resp = some r)
    (hst : statusRetryable c.retryOnStatus r.status = true) :
    r.idx ∈ (Client.Do c ctx now transport wfuel t0).2.closed := by
  have h0 : CInv c (initCState eps c t0) := by
    intro hr h1 h2
    simp [initCState] at h1
  have hfin := cinv_clientLoop c ctx now transport wfuel
    ((c.maxRetries + 1) % 2 ^ 64) 0 (initCState eps c t0) none h0
  exact hfin r hresp hst

/-- Witness for C10: exhaustion on status 500 hands back the response of
transport call 2, and that call index is among the closed bodies. -/
theorem c10_witness :
    (2 : Nat) ∈ (Client.Do ⟨10, 10, 10, 2, 1, 1, some [500]⟩
      (fun _ => (none : Option Nat)) (fun _ => 0) (fun _ => Except.ok 500)
      1 0).2.closed :=
  c10_exhausted_response_body_closed ⟨10, 10, 10, 2, 1, 1, some [500]⟩
    (fun _ => none) (fun _ => 0) (fun _ => Except.ok 500) 1 0 ⟨500, 2⟩
    (by decide) (by decide)

end Gohlcv
